import Mathlib

/-!
Verification of `scripts/clean_har.py` (HAR cleaner).

The script reads a HAR file as JSON, keeps the URLs of entries whose
request method is `GET` (with a favicon check that inspects the method
string), and overwrites the file with the JSON array of surviving URLs.

We shallowly embed the Python semantics of the relevant operations:
JSON values, `dict.get` with default, subscripting `x[k]`, iteration,
and `str.split('/')[-1]`, then model `clean_har` as a pure function on
the parsed document, with file effects made explicit.
-/

namespace CleanHar

/-- JSON values as produced by Python's `json.load`.  Objects are
association lists with distinct keys (Python dicts after JSON parsing). -/
inductive Json where
  | null
  | bool (b : Bool)
  | num (n : Int)
  | str (s : String)
  | arr (xs : List Json)
  | obj (kvs : List (String × Json))

/-- Errors the Python interpreter can raise in this script. -/
inductive PyErr where
  | attributeError
  | keyError (key : String)
  | typeError
  | parseError
deriving DecidableEq

/-- Key lookup in a JSON object (Python dict lookup; keys are distinct). -/
def lookupKey : List (String × Json) → String → Option Json
  | [], _ => none
  | (k, v) :: rest, key => if k = key then some v else lookupKey rest key

/-- Python `x.get(k, default)`: only dicts have `.get`; any other value
raises `AttributeError`. -/
def pyGet (x : Json) (k : String) (default : Json) : Except PyErr Json :=
  match x with
  | .obj kvs => .ok ((lookupKey kvs k).getD default)
  | _ => .error .attributeError

/-- Python `x[k]` with a string key: on a dict it is lookup
(raising `KeyError k` when absent); on any other value it raises
`TypeError`. -/
def pySubscript (x : Json) (k : String) : Except PyErr Json :=
  match x with
  | .obj kvs =>
    match lookupKey kvs k with
    | some v => .ok v
    | none => .error (.keyError k)
  | _ => .error .typeError

/-- Python `for ... in x`: lists yield their elements, strings their
characters (as one-character strings), dicts their keys; other values
raise `TypeError`. -/
def pyIter (x : Json) : Except PyErr (List Json) :=
  match x with
  | .arr xs => .ok xs
  | .str s => .ok (s.data.map fun c => .str (String.mk [c]))
  | .obj kvs => .ok (kvs.map fun kv => .str kv.1)
  | _ => .error .typeError

/-- Python `s.split('/')` on the character list: split at every `/`,
keeping empty fields; the result is never empty. -/
def splitSlash : List Char → List (List Char)
  | [] => [[]]
  | c :: rest =>
    match splitSlash rest with
    | [] => [[]]
    | seg :: segs =>
      if c = '/' then [] :: seg :: segs else (c :: seg) :: segs

/-- Python `s.split('/')[-1]`: `str.split` with an explicit separator
keeps empty fields and never returns an empty list, so `[-1]` is the
last element. -/
def lastSegment (s : String) : String :=
  String.mk ((splitSlash s.data).getLastD [])

/-- Python `x == 'GET'` for a JSON value: true exactly on the string `"GET"`. -/
def isGET : Json → Bool
  | .str s => s = "GET"
  | _ => false

/-- The loop body of `clean_har` (source lines 16-22) for one entry:
`None` models `continue` (entry discarded), `some u` models appending
`entry['request']['url']`.  Each subscript of the source is modelled at
the place it occurs. -/
def processEntry (entry : Json) : Except PyErr (Option Json) :=
  match pySubscript entry "request" with
  | .error e => .error e
  | .ok req =>
    match pySubscript req "method" with
    | .error e => .error e
    | .ok method =>
      if isGET method then
        match pySubscript entry "request" with
        | .error e => .error e
        | .ok req2 =>
          match pySubscript req2 "method" with
          | .error e => .error e
          | .ok method2 =>
            match method2 with
            | .str s =>
              if lastSegment s = "favicon.ico" then .ok none
              else
                match pySubscript entry "request" with
                | .error e => .error e
                | .ok req3 =>
                  match pySubscript req3 "url" with
                  | .error e => .error e
                  | .ok url => .ok (some url)
            | _ => .error .attributeError
      else .ok none

/-- The whole loop of `clean_har` (source lines 14-22): entries are
processed in order, the first raised error aborts the run, and surviving
URLs are collected in order. -/
def processEntries : List Json → Except PyErr (List Json)
  | [] => .ok []
  | e :: rest =>
    match processEntry e with
    | .error err => .error err
    | .ok none => processEntries rest
    | .ok (some u) =>
      match processEntries rest with
      | .error err => .error err
      | .ok us => .ok (u :: us)

/-- `clean_har` on the parsed document (source lines 14-22):
`har_data.get('log', {}).get('entries', [])` then the filtering loop. -/
def clean_har_pure (har_data : Json) : Except PyErr (List Json) :=
  match pyGet har_data "log" (Json.obj []) with
  | .error e => .error e
  | .ok logv =>
    match pyGet logv "entries" (Json.arr []) with
    | .error e => .error e
    | .ok entries =>
      match pyIter entries with
      | .error e => .error e
      | .ok entryList => processEntries entryList

/-- `entry['request']['method']` as a single accessor, for stating claims. -/
def entryRequestMethod (e : Json) : Except PyErr Json :=
  match pySubscript e "request" with
  | .error err => .error err
  | .ok req => pySubscript req "method"

/-- `entry['request']['url']` as a single accessor, for stating claims. -/
def entryRequestUrl (e : Json) : Except PyErr Json :=
  match pySubscript e "request" with
  | .error err => .error err
  | .ok req => pySubscript req "url"

/-- A well-formed entry in the sense of the spec: it has `request.method`
and `request.url` (both accessors succeed). -/
def wellFormedEntry (e : Json) : Prop :=
  (∃ m, entryRequestMethod e = .ok m) ∧ (∃ u, entryRequestUrl e = .ok u)

/-- The url an entry contributes when its method is `GET`, nothing
otherwise; used to state what the cleaner produces. -/
def urlOfGET (e : Json) : Option Json :=
  match entryRequestMethod e, entryRequestUrl e with
  | .ok m, .ok u => if isGET m then some u else none
  | _, _ => none

/-- Whether an entry's `request.method` is exactly the string `"GET"`. -/
def isGetEntry (e : Json) : Bool :=
  match entryRequestMethod e with
  | .ok m => isGET m
  | .error _ => false

/-- The entry's `request.url`, defaulting to `null` (total projection,
only used on well-formed entries). -/
def entryUrlD (e : Json) : Json :=
  match entryRequestUrl e with
  | .ok u => u
  | .error _ => Json.null

/-- A minimal HAR document whose `log.entries` is the given list. -/
def mkDoc (es : List Json) : Json :=
  .obj [("log", .obj [("entries", .arr es)])]

/-- An entry record with the given `request.method` and `request.url`. -/
def mkEntry (m u : Json) : Json :=
  .obj [("request", .obj [("method", m), ("url", u)])]

/-- The entries of the worked example of the spec. -/
def exampleEntries : List Json :=
  [ mkEntry (.str "GET") (.str "https://a.com/")
  , mkEntry (.str "POST") (.str "https://a.com/submit")
  , mkEntry (.str "GET") (.str "https://a.com/img.png") ]

/-- The worked example input of the spec. -/
def exampleDoc : Json := mkDoc exampleEntries

/-- Outcome of one run of `clean_har` at file level: the computation's
result, the file content at `input_file` afterwards, and whether the
file was ever opened for writing.  The file content is modelled as the
result of parsing it: `.error .parseError` stands for content that is
not valid JSON. -/
structure RunResult where
  result : Except PyErr (List Json)
  fileAfter : Except PyErr Json
  openedForWrite : Bool

/-- `clean_har` at file level (source lines 11-25): the file is read and
parsed, the filtering pass runs, and only when it completes without an
exception is the file reopened in write mode and overwritten with the
JSON array of surviving urls.  Any earlier exception propagates with the
file untouched. -/
def runCleanHar (file : Except PyErr Json) : RunResult :=
  match file with
  | .error e => ⟨.error e, file, false⟩
  | .ok doc =>
    match clean_har_pure doc with
    | .error e => ⟨.error e, file, false⟩
    | .ok out => ⟨.ok out, .ok (Json.arr out), true⟩

/-- The usage string printed by the `__main__` block. -/
def usageMessage : String := "Usage: python clean_har.py <input_har_file>"

/-- Observable outcome of the `__main__` block: process exit code, lines
printed to standard output, file content afterwards, and whether the
file was opened at all. -/
structure MainOutcome where
  exitCode : Nat
  stdout : List String
  fileAfter : Except PyErr Json
  openedFile : Bool

/-- The `__main__` block (source lines 28-35): `args` is `sys.argv[1:]`.
With an argument count other than one, the usage message is printed and
the process exits with code 1 before touching any file; otherwise
`clean_har` runs on the file (exit 0 on success; an uncaught exception
makes Python exit with code 1). -/
def mainRun (args : List String) (file : Except PyErr Json) : MainOutcome :=
  if args.length ≠ 1 then
    ⟨1, [usageMessage], file, false⟩
  else
    match runCleanHar file with
    | ⟨.ok _, f2, _⟩ => ⟨0, [], f2, true⟩
    | ⟨.error _, f2, _⟩ => ⟨1, [], f2, true⟩

/-- Modelled from the claim's words (C10): the simpler loop body that
keeps the url of every entry whose `request.method` equals `"GET"`, with
no favicon check. -/
def processEntrySimple (entry : Json) : Except PyErr (Option Json) :=
  match pySubscript entry "request" with
  | .error e => .error e
  | .ok req =>
    match pySubscript req "method" with
    | .error e => .error e
    | .ok method =>
      if isGET method then
        match pySubscript entry "request" with
        | .error e => .error e
        | .ok req3 =>
          match pySubscript req3 "url" with
          | .error e => .error e
          | .ok url => .ok (some url)
      else .ok none

/-- The simple loop over all entries. -/
def processEntriesSimple : List Json → Except PyErr (List Json)
  | [] => .ok []
  | e :: rest =>
    match processEntrySimple e with
    | .error err => .error err
    | .ok none => processEntriesSimple rest
    | .ok (some u) =>
      match processEntriesSimple rest with
      | .error err => .error err
      | .ok us => .ok (u :: us)

/-- Modelled from the claim's words (C10): the simpler cleaner that keeps
the url of every entry whose `request.method` equals `"GET"`. -/
def clean_har_simple (har_data : Json) : Except PyErr (List Json) :=
  match pyGet har_data "log" (Json.obj []) with
  | .error e => .error e
  | .ok logv =>
    match pyGet logv "entries" (Json.arr []) with
    | .error e => .error e
    | .ok entries =>
      match pyIter entries with
      | .error e => .error e
      | .ok entryList => processEntriesSimple entryList

/-- Entries shaped as the HAR data model prescribes: a JSON object whose
`request` field, when present, is itself an object. -/
def objEntryShape (e : Json) : Prop :=
  ∃ kvs, e = Json.obj kvs ∧
    ∀ r, lookupKey kvs "request" = some r → ∃ rkvs, r = Json.obj rkvs

/-- A malformed entry in the sense of C7: an object lacking `request`,
or whose `request` object lacks `method`. -/
def lacksRequestOrMethod (e : Json) : Prop :=
  (∃ kvs, e = Json.obj kvs ∧ lookupKey kvs "request" = none)
  ∨ (∃ kvs rkvs, e = Json.obj kvs ∧ lookupKey kvs "request" = some (Json.obj rkvs)
       ∧ lookupKey rkvs "method" = none)

theorem isGET_true {m : Json} (h : isGET m = true) : m = Json.str "GET" := by
  cases m <;> simp [isGET] at h
  simp [h]

theorem isGET_false_of_ne {m : Json} (h : m ≠ Json.str "GET") : isGET m = false := by
  cases m <;> simp [isGET]
  intro hs
  exact h (by simp [hs])

theorem processEntry_skip {e req m : Json}
    (h1 : pySubscript e "request" = .ok req)
    (h2 : pySubscript req "method" = .ok m)
    (h3 : isGET m = false) :
    processEntry e = .ok none := by
  simp [processEntry, h1, h2, h3]

theorem processEntry_get {e req u : Json}
    (h1 : pySubscript e "request" = .ok req)
    (h2 : pySubscript req "method" = .ok (Json.str "GET"))
    (h3 : pySubscript req "url" = .ok u) :
    processEntry e = .ok (some u) := by
  have hfav : lastSegment "GET" = "GET" := rfl
  simp [processEntry, h1, h2, h3, isGET, hfav]

theorem processEntry_url_err {e req : Json} {err : PyErr}
    (h1 : pySubscript e "request" = .ok req)
    (h2 : pySubscript req "method" = .ok (Json.str "GET"))
    (h3 : pySubscript req "url" = .error err) :
    processEntry e = .error err := by
  have hfav : lastSegment "GET" = "GET" := rfl
  simp [processEntry, h1, h2, h3, isGET, hfav]

theorem processEntry_req_err {e : Json} {err : PyErr}
    (h1 : pySubscript e "request" = .error err) :
    processEntry e = .error err := by
  simp [processEntry, h1]

theorem processEntry_method_err {e req : Json} {err : PyErr}
    (h1 : pySubscript e "request" = .ok req)
    (h2 : pySubscript req "method" = .error err) :
    processEntry e = .error err := by
  simp [processEntry, h1, h2]

theorem processEntrySimple_req_err {e : Json} {err : PyErr}
    (h1 : pySubscript e "request" = .error err) :
    processEntrySimple e = .error err := by
  simp [processEntrySimple, h1]

theorem processEntrySimple_method_err {e req : Json} {err : PyErr}
    (h1 : pySubscript e "request" = .ok req)
    (h2 : pySubscript req "method" = .error err) :
    processEntrySimple e = .error err := by
  simp [processEntrySimple, h1, h2]

theorem processEntrySimple_skip {e req m : Json}
    (h1 : pySubscript e "request" = .ok req)
    (h2 : pySubscript req "method" = .ok m)
    (h3 : isGET m = false) :
    processEntrySimple e = .ok none := by
  simp [processEntrySimple, h1, h2, h3]

theorem processEntrySimple_get {e req u : Json}
    (h1 : pySubscript e "request" = .ok req)
    (h2 : pySubscript req "method" = .ok (Json.str "GET"))
    (h3 : pySubscript req "url" = .ok u) :
    processEntrySimple e = .ok (some u) := by
  simp [processEntrySimple, h1, h2, h3, isGET]

theorem processEntrySimple_url_err {e req : Json} {err : PyErr}
    (h1 : pySubscript e "request" = .ok req)
    (h2 : pySubscript req "method" = .ok (Json.str "GET"))
    (h3 : pySubscript req "url" = .error err) :
    processEntrySimple e = .error err := by
  simp [processEntrySimple, h1, h2, h3, isGET]

theorem processEntry_wf {e m u : Json}
    (hm : entryRequestMethod e = .ok m)
    (hu : entryRequestUrl e = .ok u) :
    processEntry e = .ok (if isGET m then some u else none) := by
  cases h1 : pySubscript e "request" with
  | error err =>
    unfold entryRequestMethod at hm
    rw [h1] at hm
    exact absurd hm (by simp)
  | ok req =>
    unfold entryRequestMethod at hm
    unfold entryRequestUrl at hu
    rw [h1] at hm hu
    have hm2 : pySubscript req "method" = Except.ok m := hm
    have hu2 : pySubscript req "url" = Except.ok u := hu
    cases hg : isGET m with
    | false => simp [processEntry_skip h1 hm2 hg, hg]
    | true =>
      have hm3 := isGET_true hg
      subst hm3
      simp [processEntry_get h1 hm2 hu2]

theorem processEntries_append_skip {e : Json} (h : processEntry e = .ok none)
    (pre post : List Json) :
    processEntries (pre ++ e :: post) = processEntries (pre ++ post) := by
  induction pre with
  | nil => simp [processEntries, h]
  | cons a pre ih =>
    simp only [List.cons_append, processEntries, List.append_eq]
    rw [ih]

theorem processEntries_wf {es : List Json} (h : ∀ e ∈ es, wellFormedEntry e) :
    processEntries es = .ok (es.filterMap urlOfGET) := by
  induction es with
  | nil => rfl
  | cons e rest ih =>
    obtain ⟨⟨m, hm⟩, ⟨u, hu⟩⟩ := h e (by simp)
    have hrest := ih (fun a ha => h a (by simp [ha]))
    have hpe := processEntry_wf hm hu
    have hurl : urlOfGET e = if isGET m then some u else none := by
      simp [urlOfGET, hm, hu]
    cases hg : isGET m with
    | false =>
      rw [hg] at hpe hurl
      simp at hpe hurl
      simp [processEntries, hpe, List.filterMap_cons, hurl, hrest]
    | true =>
      rw [hg] at hpe hurl
      simp at hpe hurl
      simp [processEntries, hpe, List.filterMap_cons, hurl, hrest]

theorem clean_har_entries {doc lg : Json} {es : List Json}
    (h1 : pyGet doc "log" (Json.obj []) = .ok lg)
    (h2 : pyGet lg "entries" (Json.arr []) = .ok (Json.arr es)) :
    clean_har_pure doc = processEntries es := by
  unfold clean_har_pure
  rw [h1]
  simp only []
  rw [h2]
  rfl

theorem processEntry_shape {e : Json} (h : objEntryShape e) :
    (∃ k, processEntry e = .error (.keyError k)) ∨ ∃ r, processEntry e = .ok r := by
  obtain ⟨kvs, rfl, hreq⟩ := h
  cases hr : lookupKey kvs "request" with
  | none =>
    have h1 : pySubscript (Json.obj kvs) "request" = .error (.keyError "request") := by
      simp [pySubscript, hr]
    exact Or.inl ⟨"request", processEntry_req_err h1⟩
  | some r =>
    obtain ⟨rkvs, rfl⟩ := hreq r hr
    have h1 : pySubscript (Json.obj kvs) "request" = .ok (Json.obj rkvs) := by
      simp [pySubscript, hr]
    cases hm : lookupKey rkvs "method" with
    | none =>
      have h2 : pySubscript (Json.obj rkvs) "method" = .error (.keyError "method") := by
        simp [pySubscript, hm]
      exact Or.inl ⟨"method", processEntry_method_err h1 h2⟩
    | some m =>
      have h2 : pySubscript (Json.obj rkvs) "method" = .ok m := by
        simp [pySubscript, hm]
      cases hg : isGET m with
      | false => exact Or.inr ⟨none, processEntry_skip h1 h2 hg⟩
      | true =>
        obtain rfl := isGET_true hg
        cases hu : lookupKey rkvs "url" with
        | none =>
          exact Or.inl ⟨"url", processEntry_url_err h1 h2 (by simp [pySubscript, hu])⟩
        | some u =>
          exact Or.inr ⟨some u, processEntry_get h1 h2 (by simp [pySubscript, hu])⟩

theorem processEntry_bad {e : Json} (h : lacksRequestOrMethod e) :
    ∃ k, processEntry e = .error (.keyError k) := by
  rcases h with ⟨kvs, rfl, hr⟩ | ⟨kvs, rkvs, rfl, hr, hm⟩
  · exact ⟨"request", processEntry_req_err (by simp [pySubscript, hr])⟩
  · have h1 : pySubscript (Json.obj kvs) "request" = .ok (Json.obj rkvs) := by
      simp [pySubscript, hr]
    have h2 : pySubscript (Json.obj rkvs) "method" = .error (.keyError "method") := by
      simp [pySubscript, hm]
    exact ⟨"method", processEntry_method_err h1 h2⟩

theorem processEntries_bad {es : List Json}
    (hshape : ∀ e ∈ es, objEntryShape e)
    (hbad : ∃ e ∈ es, lacksRequestOrMethod e) :
    ∃ k, processEntries es = .error (.keyError k) := by
  induction es with
  | nil =>
    rcases hbad with ⟨e, he, _⟩
    cases he
  | cons a rest ih =>
    rcases processEntry_shape (hshape a (by simp)) with ⟨k, hk⟩ | ⟨r, hr⟩
    · exact ⟨k, by simp [processEntries, hk]⟩
    · have hbad' : ∃ e ∈ rest, lacksRequestOrMethod e := by
        rcases hbad with ⟨e, he, hb⟩
        rcases List.mem_cons.mp he with rfl | he'
        · obtain ⟨k, hk⟩ := processEntry_bad hb
          rw [hk] at hr
          exact absurd hr (by simp)
        · exact ⟨e, he', hb⟩
      obtain ⟨k, hk⟩ := ih (fun e he => hshape e (by simp [he])) hbad'
      cases r with
      | none => exact ⟨k, by simp [processEntries, hr, hk]⟩
      | some u => exact ⟨k, by simp [processEntries, hr, hk]⟩

theorem processEntry_eq_simple (e : Json) :
    processEntry e = processEntrySimple e := by
  cases h1 : pySubscript e "request" with
  | error err => rw [processEntry_req_err h1, processEntrySimple_req_err h1]
  | ok req =>
    cases h2 : pySubscript req "method" with
    | error err => rw [processEntry_method_err h1 h2, processEntrySimple_method_err h1 h2]
    | ok m =>
      cases hg : isGET m with
      | false => rw [processEntry_skip h1 h2 hg, processEntrySimple_skip h1 h2 hg]
      | true =>
        obtain rfl := isGET_true hg
        cases hu : pySubscript req "url" with
        | error err =>
          rw [processEntry_url_err h1 h2 hu, processEntrySimple_url_err h1 h2 hu]
        | ok u =>
          rw [processEntry_get h1 h2 hu, processEntrySimple_get h1 h2 hu]

theorem processEntries_eq_simple (es : List Json) :
    processEntries es = processEntriesSimple es := by
  induction es with
  | nil => rfl
  | cons e rest ih =>
    simp [processEntries, processEntriesSimple, processEntry_eq_simple e, ih]

end CleanHar

namespace CleanHar

theorem clean_har_mkDoc (es : List Json) :
    clean_har_pure (mkDoc es) = processEntries es := rfl

theorem clean_har_skip_middle {e req m : Json} (pre post : List Json)
    (h1 : pySubscript e "request" = .ok req)
    (h2 : pySubscript req "method" = .ok m)
    (h3 : isGET m = false) :
    clean_har_pure (mkDoc (pre ++ e :: post)) = clean_har_pure (mkDoc (pre ++ post)) := by
  rw [clean_har_mkDoc, clean_har_mkDoc,
    processEntries_append_skip (processEntry_skip h1 h2 h3)]

theorem filterMap_urlOfGET_eq {es : List Json} (hwf : ∀ e ∈ es, wellFormedEntry e) :
    es.filterMap urlOfGET = (es.filter isGetEntry).map entryUrlD := by
  induction es with
  | nil => rfl
  | cons e rest ih =>
    obtain ⟨⟨m, hm⟩, ⟨u, hu⟩⟩ := hwf e (by simp)
    have ih2 := ih (fun a ha => hwf a (by simp [ha]))
    have hget : isGetEntry e = isGET m := by simp [isGetEntry, hm]
    have hurl : urlOfGET e = if isGET m then some u else none := by
      simp [urlOfGET, hm, hu]
    have hud : entryUrlD e = u := by simp [entryUrlD, hu]
    cases hg : isGET m with
    | false => simp [List.filterMap_cons, List.filter_cons, hurl, hget, hg, ih2]
    | true => simp [List.filterMap_cons, List.filter_cons, hurl, hget, hg, ih2, hud]

/-- C1: for every well-formed HAR document (every entry has `request.method`
and `request.url`), the cleaner produces exactly the list of `request.url`
values of the entries whose `request.method` equals `"GET"`; in particular,
on the spec's worked example the output is
`["https://a.com/","https://a.com/img.png"]`. -/
theorem claim_C1 :
    (∀ (doc lg : Json) (es : List Json),
        pyGet doc "log" (Json.obj []) = .ok lg →
        pyGet lg "entries" (Json.arr []) = .ok (Json.arr es) →
        (∀ e ∈ es, wellFormedEntry e) →
        clean_har_pure doc = .ok (es.filterMap urlOfGET))
    ∧ clean_har_pure exampleDoc =
        .ok [Json.str "https://a.com/", Json.str "https://a.com/img.png"] := by
  constructor
  · intro doc lg es h1 h2 hwf
    rw [clean_har_entries h1 h2, processEntries_wf hwf]
  · rfl

/-- Witness for C1: the general statement applied to the worked example. -/
theorem claim_C1_witness :
    clean_har_pure exampleDoc = .ok (exampleEntries.filterMap urlOfGET) := by
  refine claim_C1.1 exampleDoc (Json.obj [("entries", Json.arr exampleEntries)])
    exampleEntries rfl rfl ?_
  intro e he
  simp [exampleEntries, mkEntry] at he
  rcases he with rfl | rfl | rfl <;> exact ⟨⟨_, rfl⟩, ⟨_, rfl⟩⟩

/-- C2: when the top-level object lacks `log`, or `log` lacks `entries`, or
`entries` is the empty array, the cleaner does not fail and outputs `[]`. -/
theorem claim_C2 (doc : Json)
    (h : (∃ kvs, doc = Json.obj kvs ∧ lookupKey kvs "log" = none)
       ∨ (∃ kvs lkvs, doc = Json.obj kvs ∧ lookupKey kvs "log" = some (Json.obj lkvs)
            ∧ lookupKey lkvs "entries" = none)
       ∨ (∃ kvs lkvs, doc = Json.obj kvs ∧ lookupKey kvs "log" = some (Json.obj lkvs)
            ∧ lookupKey lkvs "entries" = some (Json.arr []))) :
    clean_har_pure doc = .ok [] := by
  have base : ∀ lg : Json, pyGet doc "log" (Json.obj []) = .ok lg →
      pyGet lg "entries" (Json.arr []) = .ok (Json.arr []) →
      clean_har_pure doc = .ok [] := by
    intro lg h1 h2
    rw [clean_har_entries h1 h2]
    rfl
  rcases h with ⟨kvs, rfl, hl⟩ | ⟨kvs, lkvs, rfl, hl, he⟩ | ⟨kvs, lkvs, rfl, hl, he⟩
  · exact base (Json.obj []) (by simp [pyGet, hl]) (by simp [pyGet, lookupKey])
  · exact base (Json.obj lkvs) (by simp [pyGet, hl]) (by simp [pyGet, he])
  · exact base (Json.obj lkvs) (by simp [pyGet, hl]) (by simp [pyGet, he])

/-- Witness for C2: a document with no `log` key yields `[]`. -/
theorem claim_C2_witness : clean_har_pure (Json.obj []) = .ok [] :=
  claim_C2 (Json.obj []) (Or.inl ⟨[], rfl, rfl⟩)

/-- C3: an entry whose `request.method` is not exactly the string `"GET"`
contributes nothing to the output, whatever its `request.url` holds (the
hypothesis does not mention `url` at all, so `url` may even be absent). -/
theorem claim_C3 (pre post : List Json) (e req m : Json)
    (h1 : pySubscript e "request" = .ok req)
    (h2 : pySubscript req "method" = .ok m)
    (h3 : m ≠ Json.str "GET") :
    clean_har_pure (mkDoc (pre ++ e :: post)) = clean_har_pure (mkDoc (pre ++ post)) :=
  clean_har_skip_middle pre post h1 h2 (isGET_false_of_ne h3)

/-- Witness for C3: a POST entry (with no `url` field) in the middle of two
GET entries contributes nothing. -/
theorem claim_C3_witness :
    clean_har_pure (mkDoc
      [ mkEntry (.str "GET") (.str "https://a.com/")
      , Json.obj [("request", Json.obj [("method", Json.str "POST")])]
      , mkEntry (.str "GET") (.str "https://a.com/img.png") ]) =
    clean_har_pure (mkDoc
      [ mkEntry (.str "GET") (.str "https://a.com/")
      , mkEntry (.str "GET") (.str "https://a.com/img.png") ]) := by
  exact claim_C3
    [mkEntry (.str "GET") (.str "https://a.com/")]
    [mkEntry (.str "GET") (.str "https://a.com/img.png")]
    (Json.obj [("request", Json.obj [("method", Json.str "POST")])])
    (Json.obj [("method", Json.str "POST")])
    (Json.str "POST") rfl rfl (by simp)

/-- C4: an entry whose `request.method` string has final `/`-segment
`"favicon.ico"` is excluded from the output: the favicon check inspects the
method string, not the url.  (The claim's literal guard `method = "GET"`
together with this segment condition is unsatisfiable, since the only
segment of `"GET"` is `"GET"`; we prove the stronger statement for every
method string ending in `/favicon.ico`, which subsumes the claim.) -/
theorem claim_C4 (pre post : List Json) (e req : Json) (s : String)
    (h1 : pySubscript e "request" = .ok req)
    (h2 : pySubscript req "method" = .ok (Json.str s))
    (h3 : lastSegment s = "favicon.ico") :
    clean_har_pure (mkDoc (pre ++ e :: post)) = clean_har_pure (mkDoc (pre ++ post)) := by
  have hne : isGET (Json.str s) = false := by
    apply isGET_false_of_ne
    intro hs
    have hs2 : s = "GET" := by
      injection hs
    rw [hs2] at h3
    exact absurd h3 (by decide)
  exact clean_har_skip_middle pre post h1 h2 hne

/-- Witness for C4: a method string literally ending in `/favicon.ico`. -/
theorem claim_C4_witness :
    clean_har_pure (mkDoc [mkEntry (.str "GET/favicon.ico") (.str "https://a.com/favicon.ico")]) =
    clean_har_pure (mkDoc []) :=
  claim_C4 [] []
    (mkEntry (.str "GET/favicon.ico") (.str "https://a.com/favicon.ico"))
    (Json.obj [("method", Json.str "GET/favicon.ico"), ("url", Json.str "https://a.com/favicon.ico")])
    "GET/favicon.ico" rfl rfl (by decide)

/-- C5: on well-formed input the output is the url projection of the
filtered entry list, and that filtered list is a sublist of the input
entries, so the output order equals the relative order of the surviving
entries. -/
theorem claim_C5 (doc lg : Json) (es : List Json)
    (h1 : pyGet doc "log" (Json.obj []) = .ok lg)
    (h2 : pyGet lg "entries" (Json.arr []) = .ok (Json.arr es))
    (hwf : ∀ e ∈ es, wellFormedEntry e) :
    clean_har_pure doc = .ok ((es.filter isGetEntry).map entryUrlD)
    ∧ (es.filter isGetEntry).Sublist es := by
  refine ⟨?_, List.filter_sublist es⟩
  rw [clean_har_entries h1 h2, processEntries_wf hwf, filterMap_urlOfGET_eq hwf]

/-- Witness for C5 at the worked example. -/
theorem claim_C5_witness :
    clean_har_pure exampleDoc =
      .ok ((exampleEntries.filter isGetEntry).map entryUrlD)
    ∧ (exampleEntries.filter isGetEntry).Sublist exampleEntries := by
  refine claim_C5 exampleDoc (Json.obj [("entries", Json.arr exampleEntries)])
    exampleEntries rfl rfl ?_
  intro e he
  simp [exampleEntries, mkEntry] at he
  rcases he with rfl | rfl | rfl <;> exact ⟨⟨_, rfl⟩, ⟨_, rfl⟩⟩

end CleanHar

namespace CleanHar

/-- C6 counterexample: running the cleaner on an already-cleaned file, a
top-level JSON array of strings, raises an AttributeError instead of
producing the empty output the claim predicts. -/
theorem claim_C6_counterexample :
    clean_har_pure (Json.arr [Json.str "https://a.com/", Json.str "https://a.com/img.png"])
      = .error .attributeError
    ∧ clean_har_pure (Json.arr [Json.str "https://a.com/", Json.str "https://a.com/img.png"])
      ≠ .ok [] := by
  refine ⟨rfl, ?_⟩
  intro h
  rw [show clean_har_pure
        (Json.arr [Json.str "https://a.com/", Json.str "https://a.com/img.png"])
        = .error .attributeError from rfl] at h
  exact Except.noConfusion h

/-- C6 amended: a second run on an already-cleaned file, whose content is a
top-level JSON array, raises an AttributeError (the array value has no
`.get` attribute), so the run aborts before the write: the file keeps its
content and the empty array is not written. -/
theorem claim_C6 (xs : List Json) :
    clean_har_pure (Json.arr xs) = .error .attributeError
    ∧ (runCleanHar (.ok (Json.arr xs))).fileAfter = .ok (Json.arr xs)
    ∧ (runCleanHar (.ok (Json.arr xs))).openedForWrite = false :=
  ⟨rfl, rfl, rfl⟩

/-- C7: if the entries of the document are records in the sense of the HAR
data model and one of them lacks `request`, or its `request` lacks
`method`, the run fails with a key-lookup error, so no output list is
produced. -/
theorem claim_C7 (doc lg : Json) (es : List Json)
    (h1 : pyGet doc "log" (Json.obj []) = .ok lg)
    (h2 : pyGet lg "entries" (Json.arr []) = .ok (Json.arr es))
    (hshape : ∀ e ∈ es, objEntryShape e)
    (hbad : ∃ e ∈ es, lacksRequestOrMethod e) :
    (∃ k, clean_har_pure doc = .error (PyErr.keyError k))
    ∧ ∀ out, clean_har_pure doc ≠ .ok out := by
  obtain ⟨k, hk⟩ := processEntries_bad hshape hbad
  have hc : clean_har_pure doc = .error (PyErr.keyError k) := by
    rw [clean_har_entries h1 h2, hk]
  refine ⟨⟨k, hc⟩, ?_⟩
  intro out h
  rw [hc] at h
  exact Except.noConfusion h

/-- Witness for C7: one entry that is an empty object. -/
theorem claim_C7_witness :
    (∃ k, clean_har_pure (mkDoc [Json.obj []]) = .error (PyErr.keyError k))
    ∧ ∀ out, clean_har_pure (mkDoc [Json.obj []]) ≠ .ok out := by
  refine claim_C7 (mkDoc [Json.obj []]) (Json.obj [("entries", Json.arr [Json.obj []])])
    [Json.obj []] rfl rfl ?_ ?_
  · intro e he
    simp at he
    subst he
    exact ⟨[], rfl, fun r hr => Option.noConfusion hr⟩
  · exact ⟨Json.obj [], by simp, Or.inl ⟨[], rfl, rfl⟩⟩

/-- C8: whenever the run fails, during parsing or during the filtering
pass, the failure happens before the file is opened for writing, and the
file content is unchanged. -/
theorem claim_C8 (file : Except PyErr Json) (err : PyErr)
    (h : (runCleanHar file).result = .error err) :
    (runCleanHar file).fileAfter = file
    ∧ (runCleanHar file).openedForWrite = false := by
  cases file with
  | error e => exact ⟨rfl, rfl⟩
  | ok doc =>
    cases hc : clean_har_pure doc with
    | error e => constructor <;> simp [runCleanHar, hc]
    | ok out =>
      rw [show (runCleanHar (.ok doc)).result
            = (match clean_har_pure doc with
               | .error e => Except.error e
               | .ok out => Except.ok out) from by
          simp [runCleanHar]
          cases clean_har_pure doc <;> rfl] at h
      rw [hc] at h
      exact Except.noConfusion h

/-- Witness for C8: invalid JSON (parse failure). -/
theorem claim_C8_witness :
    (runCleanHar (.error .parseError)).fileAfter = .error .parseError
    ∧ (runCleanHar (.error .parseError)).openedForWrite = false :=
  claim_C8 (.error .parseError) .parseError rfl

/-- C9: with an argument count other than one the program prints the usage
message to standard output, exits with code 1, and touches no file; with
exactly one argument it opens the file and runs the cleaner (exit 0 on
success, 1 on an uncaught exception). -/
theorem claim_C9 :
    (∀ (args : List String) (file : Except PyErr Json), args.length ≠ 1 →
        mainRun args file = ⟨1, [usageMessage], file, false⟩)
    ∧ (∀ (args : List String) (file : Except PyErr Json), args.length = 1 →
        mainRun args file =
          ⟨(match (runCleanHar file).result with
            | .ok _ => 0
            | .error _ => 1), [], (runCleanHar file).fileAfter, true⟩) := by
  constructor
  · intro args file h
    simp [mainRun, h]
  · intro args file h
    cases hr : runCleanHar file with
    | mk res f2 w =>
      cases res <;> simp [mainRun, h, hr]

/-- Witness for C9: zero arguments print usage and leave the file alone;
one argument reaches the cleaner. -/
theorem claim_C9_witness :
    mainRun [] (.ok (Json.obj [])) = ⟨1, [usageMessage], .ok (Json.obj []), false⟩
    ∧ mainRun ["har.json"] (.ok (Json.obj [])) =
        ⟨(match (runCleanHar (.ok (Json.obj []))).result with
          | .ok _ => 0
          | .error _ => 1), [], (runCleanHar (.ok (Json.obj []))).fileAfter, true⟩ :=
  ⟨claim_C9.1 [] (.ok (Json.obj [])) (by simp),
   claim_C9.2 ["har.json"] (.ok (Json.obj [])) rfl⟩

/-- C10: the favicon branch never discards an entry, because it is only
reached once the method equals `"GET"`, whose single `/`-segment is
`"GET"`; hence the cleaner is extensionally equal to the simpler function
that keeps the url of every entry whose `request.method` equals `"GET"`. -/
theorem claim_C10 : ∀ doc : Json, clean_har_pure doc = clean_har_simple doc := by
  intro doc
  cases h1 : pyGet doc "log" (Json.obj []) with
  | error err => simp [clean_har_pure, clean_har_simple, h1]
  | ok lg =>
    cases h2 : pyGet lg "entries" (Json.arr []) with
    | error err => simp [clean_har_pure, clean_har_simple, h1, h2]
    | ok entries =>
      cases h3 : pyIter entries with
      | error err => simp [clean_har_pure, clean_har_simple, h1, h2, h3]
      | ok es =>
        simp [clean_har_pure, clean_har_simple, h1, h2, h3, processEntries_eq_simple es]

end CleanHar
